import Mathlib

/-!
Verification of the PDF-ingestion pipeline (`pdf_to_sqlite.py`).

The development shallowly embeds the pipeline's pure logic:
* `stripFences` models the fence-stripping lines of `analyze_pdf_content`
  (strip, drop a leading three-backtick json marker, drop a trailing
  three-backtick marker, re-stripping after each drop);
* `clean_json_string` models the two global regex substitutions removing a
  comma followed by whitespace before a closing bracket or brace;
* `json_loads` models Python's strict JSON parser (`json.loads`) as a
  fuel-indexed recursive-descent parser over the character list — the fuel
  only bounds recursion depth and is chosen large enough for any input the
  theorems evaluate;
* `insert_into_database` models the row construction of the SQLite insert,
  including the `.get` defaulting, the comma-`join` of the tags value (which
  succeeds on strings and dicts, character- resp. key-wise, and raises on
  non-iterables), SQLite's bindable parameter types, and the NOT NULL
  constraint on `title`;
* `process_pdf` / `main` model the orchestrator as a function from the
  outcomes of the external collaborators (file existence, PyPDF2 extraction,
  the chat-completion request) to the list of observable effects of a run.
-/

/-- Whitespace stripped by Python's `str.strip()` (ASCII portion, which is
all the inputs in this development use). -/
def isPyWs (c : Char) : Bool :=
  c == ' ' || c == '\t' || c == '\n' || c == '\r' || c == '\x0b' || c == '\x0c'

/-- Whitespace accepted between tokens by Python's `json.loads`. -/
def isJsonWs (c : Char) : Bool :=
  c == ' ' || c == '\t' || c == '\n' || c == '\r'

/-- Characters matched by the regex class used in `clean_json_string`
(ASCII portion). -/
def isRegexWs (c : Char) : Bool :=
  c == ' ' || c == '\t' || c == '\n' || c == '\r' || c == '\x0b' || c == '\x0c'

/-- `str.strip()` on a character list. -/
def pyStripL (cs : List Char) : List Char :=
  ((cs.dropWhile isPyWs).reverse.dropWhile isPyWs).reverse

/-- Does the second list start with the first? (`str.startswith`). -/
def strStarts : List Char → List Char → Bool
  | [], _ => true
  | _ :: _, [] => false
  | p :: ps, c :: cs => p == c && strStarts ps cs

/-- Does the second list end with the first? (`str.endswith`). -/
def strEnds (suf cs : List Char) : Bool :=
  strStarts suf.reverse cs.reverse

/-- The fence-stripping steps of `analyze_pdf_content`: strip, remove a
leading seven-character fence-open marker (then strip), remove a trailing
three-character fence-close marker (then strip). -/
def stripFences (s : String) : String :=
  let s1 := pyStripL s.data
  let s2 := if strStarts "```json".data s1 then pyStripL (s1.drop 7) else s1
  let s3 := if strEnds "```".data s2 then pyStripL (s2.take (s2.length - 3)) else s2
  String.mk s3

/-- Match the tail of the regex: zero or more whitespace characters followed
by the closing character; returns the remainder after the close on success. -/
def wsMatchClose (close : Char) : List Char → Option (List Char)
  | [] => none
  | c :: rest =>
    if c == close then some rest
    else if isRegexWs c then wsMatchClose close rest
    else none

/-- One global, leftmost, non-overlapping substitution pass replacing a comma
plus whitespace plus `close` by `close`, as `re.sub` does.  The fuel argument
only bounds the recursion; `length + 1` fuel always suffices because each
step consumes at least one input character. -/
def reSubTC : Nat → Char → List Char → List Char
  | 0, _, l => l
  | fuel + 1, close, l =>
    match l with
    | [] => []
    | c :: rest =>
      if c == ',' then
        match wsMatchClose close rest with
        | some r => close :: reSubTC fuel close r
        | none => c :: reSubTC fuel close rest
      else c :: reSubTC fuel close rest

/-- `clean_json_string`: remove trailing commas before `]`, then before `}`,
each applied globally over the whole string. -/
def clean_json_string (s : String) : String :=
  String.mk (reSubTC (s.data.length + 1) '}' (reSubTC (s.data.length + 1) ']' s.data))

/-- The values `json.loads` can produce. Numbers are modelled exactly as
rationals (the claims never depend on float rounding). -/
inductive JsonVal where
  | null
  | bool (b : Bool)
  | num (q : Rat)
  | str (s : String)
  | arr (items : List JsonVal)
  | obj (fields : List (String × JsonVal))

/-- Insert a key into an object under Python-dict semantics: a duplicate key
keeps its first position but takes the new value; a fresh key is appended. -/
def objInsert (fs : List (String × JsonVal)) (k : String) (v : JsonVal) :
    List (String × JsonVal) :=
  if fs.any (fun p => p.1 == k) then
    fs.map (fun p => if p.1 == k then (k, v) else p)
  else fs ++ [(k, v)]

/-- `dict.get(k, d)`. -/
def dictGet (fs : List (String × JsonVal)) (k : String) (d : JsonVal) : JsonVal :=
  match fs.find? (fun p => p.1 == k) with
  | some p => p.2
  | none => d

/-- Hexadecimal digit value, for string `\u` escapes. -/
def hexVal (c : Char) : Option Nat :=
  if '0' ≤ c ∧ c ≤ '9' then some (c.toNat - '0'.toNat)
  else if 'a' ≤ c ∧ c ≤ 'f' then some (c.toNat - 'a'.toNat + 10)
  else if 'A' ≤ c ∧ c ≤ 'F' then some (c.toNat - 'A'.toNat + 10)
  else none

/-- Body of a JSON string literal after the opening quote, in strict mode:
control characters are rejected, the eight simple escapes and `\uXXXX`
(with surrogate pairs combined, lone surrogates rejected) are decoded.
Returns the decoded characters and the remainder after the closing quote. -/
def pStringAux : List Char → List Char → Option (List Char × List Char)
  | _, [] => none
  | acc, '"' :: rest => some (acc.reverse, rest)
  | acc, '\\' :: rest =>
    match rest with
    | [] => none
    | e :: rest2 =>
      if e == '"' then pStringAux ('"' :: acc) rest2
      else if e == '\\' then pStringAux ('\\' :: acc) rest2
      else if e == '/' then pStringAux ('/' :: acc) rest2
      else if e == 'b' then pStringAux ('\x08' :: acc) rest2
      else if e == 'f' then pStringAux ('\x0c' :: acc) rest2
      else if e == 'n' then pStringAux ('\n' :: acc) rest2
      else if e == 'r' then pStringAux ('\r' :: acc) rest2
      else if e == 't' then pStringAux ('\t' :: acc) rest2
      else if e == 'u' then
        match rest2 with
        | h1 :: h2 :: h3 :: h4 :: rest3 =>
          match hexVal h1, hexVal h2, hexVal h3, hexVal h4 with
          | some a, some b, some c, some d =>
            let n := ((a * 16 + b) * 16 + c) * 16 + d
            if 0xD800 ≤ n ∧ n ≤ 0xDBFF then
              match rest3 with
              | '\\' :: 'u' :: g1 :: g2 :: g3 :: g4 :: rest4 =>
                match hexVal g1, hexVal g2, hexVal g3, hexVal g4 with
                | some a2, some b2, some c2, some d2 =>
                  let m := ((a2 * 16 + b2) * 16 + c2) * 16 + d2
                  if 0xDC00 ≤ m ∧ m ≤ 0xDFFF then
                    pStringAux
                      (Char.ofNat (0x10000 + (n - 0xD800) * 0x400 + (m - 0xDC00)) :: acc)
                      rest4
                  else none
                | _, _, _, _ => none
              | _ => none
            else if 0xDC00 ≤ n ∧ n ≤ 0xDFFF then none
            else pStringAux (Char.ofNat n :: acc) rest3
          | _, _, _, _ => none
        | _ => none
      else none
  | acc, c :: rest =>
    if c.toNat < 0x20 then none else pStringAux (c :: acc) rest

/-- Decimal value of a digit run. -/
def digitsVal (ds : List Char) : Nat :=
  ds.foldl (fun a c => a * 10 + (c.toNat - '0'.toNat)) 0

/-- JSON number, per the regex used by Python's `json` module:
minus sign, integer part without leading zeros, optional fraction, optional
exponent; a malformed optional part is left
unconsumed, exactly as a regex leaves it for the caller to choke on. -/
def pNumber (cs : List Char) : Option (JsonVal × List Char) :=
  let sign : Bool × List Char :=
    match cs with
    | '-' :: r => (true, r)
    | _ => (false, cs)
  match sign.2 with
  | [] => none
  | c :: tl =>
    if ¬ c.isDigit then none
    else
      let ip : List Char × List Char :=
        if c == '0' then ([c], tl)
        else (sign.2.takeWhile Char.isDigit, sign.2.dropWhile Char.isDigit)
      let fp : List Char × List Char :=
        match ip.2 with
        | '.' :: r =>
          let f := r.takeWhile Char.isDigit
          if f.isEmpty then ([], ip.2) else (f, r.dropWhile Char.isDigit)
        | _ => ([], ip.2)
      let ep : Int × List Char :=
        match fp.2 with
        | e :: r4 =>
          if e == 'e' || e == 'E' then
            let es : Int × List Char :=
              match r4 with
              | '+' :: rr => (1, rr)
              | '-' :: rr => (-1, rr)
              | _ => (1, r4)
            let eds := es.2.takeWhile Char.isDigit
            if eds.isEmpty then (0, fp.2)
            else (es.1 * (digitsVal eds : Int), es.2.dropWhile Char.isDigit)
          else (0, fp.2)
        | [] => (0, fp.2)
      let mag : Nat := digitsVal ip.1 * 10 ^ fp.1.length + digitsVal fp.1
      let mantissa : Int := if sign.1 then -(mag : Int) else (mag : Int)
      let exp10 : Int := ep.1 - (fp.1.length : Int)
      let q : Rat :=
        if 0 ≤ exp10 then (mantissa : Rat) * (10 : Rat) ^ exp10.toNat
        else (mantissa : Rat) / (10 : Rat) ^ (-exp10).toNat
      some (.num q, ep.2)

/-- Skip inter-token JSON whitespace. -/
def skipWsL (cs : List Char) : List Char :=
  cs.dropWhile isJsonWs

mutual

/-- Parse one JSON value (leading whitespace allowed), returning the value and
the unconsumed remainder.  Fuel only bounds nesting; every recursive call is
preceded by consuming at least one character, so `2·length + 8` fuel at the
root never runs out. -/
def pValue : Nat → List Char → Option (JsonVal × List Char)
  | 0, _ => none
  | fuel + 1, cs =>
    match skipWsL cs with
    | '"' :: rest =>
      match pStringAux [] rest with
      | some (content, r) => some (.str (String.mk content), r)
      | none => none
    | '{' :: rest => pObjBody fuel rest
    | '[' :: rest => pArrBody fuel rest
    | 't' :: 'r' :: 'u' :: 'e' :: rest => some (.bool true, rest)
    | 'f' :: 'a' :: 'l' :: 's' :: 'e' :: rest => some (.bool false, rest)
    | 'n' :: 'u' :: 'l' :: 'l' :: rest => some (.null, rest)
    | other => pNumber other

/-- Object body after the opening brace. -/
def pObjBody : Nat → List Char → Option (JsonVal × List Char)
  | 0, _ => none
  | fuel + 1, cs =>
    match skipWsL cs with
    | '}' :: rest => some (.obj [], rest)
    | other => pMembers fuel other []

/-- One or more `"key": value` members separated by commas, then the
closing brace. -/
def pMembers : Nat → List Char → List (String × JsonVal) →
    Option (JsonVal × List Char)
  | 0, _, _ => none
  | fuel + 1, cs, acc =>
    match skipWsL cs with
    | '"' :: rest =>
      match pStringAux [] rest with
      | some (kcs, r1) =>
        match skipWsL r1 with
        | ':' :: r2 =>
          match pValue fuel r2 with
          | some (v, r3) =>
            match skipWsL r3 with
            | ',' :: r4 => pMembers fuel r4 (objInsert acc (String.mk kcs) v)
            | '}' :: r4 => some (.obj (objInsert acc (String.mk kcs) v), r4)
            | _ => none
          | none => none
        | _ => none
      | none => none
    | _ => none

/-- Array body after the opening bracket. -/
def pArrBody : Nat → List Char → Option (JsonVal × List Char)
  | 0, _ => none
  | fuel + 1, cs =>
    match skipWsL cs with
    | ']' :: rest => some (.arr [], rest)
    | other => pItems fuel other []

/-- One or more array items separated by commas, then the closing bracket. -/
def pItems : Nat → List Char → List JsonVal → Option (JsonVal × List Char)
  | 0, _, _ => none
  | fuel + 1, cs, acc =>
    match pValue fuel cs with
    | some (v, r1) =>
      match skipWsL r1 with
      | ',' :: r2 => pItems fuel r2 (acc ++ [v])
      | ']' :: r2 => some (.arr (acc ++ [v]), r2)
      | _ => none
    | none => none

end

/-- `json.loads`: parse one value and require only whitespace after it;
`none` models the `JSONDecodeError` that the callers catch. -/
def json_loads (s : String) : Option JsonVal :=
  match pValue (2 * s.data.length + 8) s.data with
  | some (v, rest) => if (skipWsL rest).isEmpty then some v else none
  | none => none

/-- The hard-coded fallback dictionary returned by the `except` branch of
`analyze_pdf_content`. -/
def fallbackRecord : JsonVal :=
  .obj [("title", .str "Unknown"), ("source", .str "Unknown"),
        ("category", .str "Unknown"), ("subtopic", .str "Unknown"),
        ("author", .str "Unknown"), ("tags", .arr []),
        ("summary", .str "No summary available")]

/-- Post-completion processing of `analyze_pdf_content`: strip fences, repair
trailing commas, parse; a parse failure is caught and replaced by the
fallback dictionary. -/
def normalizeCompletion (content : String) : JsonVal :=
  match json_loads (clean_json_string (stripFences content)) with
  | some v => v
  | none => fallbackRecord

/-- Outcome of the chat-completion request, an external collaborator:
either an exception at the transport level or a completion text. -/
inductive ApiOutcome where
  | failure
  | success (content : String)

/-- Join a string's characters with commas, as `",".join` does when handed a
string. -/
def joinCharsComma (s : String) : String :=
  String.intercalate "," (s.data.map (fun c => String.mk [c]))

/-- Extract a list of strings from a list of JSON values; `none` models the
`TypeError` that `str.join` raises on a non-string element. -/
def strListOfVals : List JsonVal → Option (List String)
  | [] => some []
  | .str s :: rest =>
    match strListOfVals rest with
    | some l => some (s :: l)
    | none => none
  | _ :: _ => none

/-- `",".join(x)` on a parsed JSON value: a string joins its characters, a
list joins its (all-string) elements, a dict joins its keys; `null`, booleans
and numbers are not iterable and raise `TypeError` (modelled as `none`). -/
def pyJoinComma : JsonVal → Option String
  | .str s => some (joinCharsComma s)
  | .arr items =>
    match strListOfVals items with
    | some l => some (String.intercalate "," l)
    | none => none
  | .obj fields => some (String.intercalate "," (fields.map (fun p => p.1)))
  | _ => none

/-- Can this value be bound as a SQLite parameter? Lists and dicts raise
`InterfaceError`; `None`, booleans, numbers and strings bind. -/
def sqliteBindable : JsonVal → Bool
  | .null => true
  | .bool _ => true
  | .num _ => true
  | .str _ => true
  | .arr _ => false
  | .obj _ => false

/-- Is the value JSON null (Python `None`)? -/
def isNullV : JsonVal → Bool
  | .null => true
  | _ => false

/-- One row of the `articles` table as bound by the INSERT statement: the
seven analysis-derived values plus the filename.  `tags` is always the joined
string; the other analysis fields keep whatever value `.get` produced. -/
structure StoredRow where
  title : JsonVal
  source : JsonVal
  category : JsonVal
  subtopic : JsonVal
  author : JsonVal
  tags : String
  summary : JsonVal
  filename : String

/-- `insert_into_database`, modelled as the row the INSERT commits, or `none`
when the attempt raises and is caught (non-dict analysis, a `TypeError` from
the tags join, an unbindable parameter, or the NOT NULL constraint on
`title`; `filename` is always a string and satisfies its constraint). -/
def insert_into_database (analysis : JsonVal) (filename : String) :
    Option StoredRow :=
  match analysis with
  | .obj fs =>
    match pyJoinComma (dictGet fs "tags" (.arr [])) with
    | none => none
    | some tagsStr =>
      let title := dictGet fs "title" (.str "Unknown")
      let source := dictGet fs "source" (.str "Unknown")
      let category := dictGet fs "category" (.str "Unknown")
      let subtopic := dictGet fs "subtopic" (.str "Unknown")
      let author := dictGet fs "author" (.str "Unknown")
      let summary := dictGet fs "summary" (.str "No summary available")
      if sqliteBindable title && sqliteBindable source && sqliteBindable category &&
          sqliteBindable subtopic && sqliteBindable author && sqliteBindable summary &&
          !isNullV title then
        some ⟨title, source, category, subtopic, author, tagsStr, summary, filename⟩
      else none
  | _ => none

/-- Split a character list on `/`, accumulating the current component. -/
def splitSlashAux : List Char → List Char → List String
  | acc, [] => [String.mk acc.reverse]
  | acc, '/' :: rest => String.mk acc.reverse :: splitSlashAux [] rest
  | acc, c :: rest => splitSlashAux (c :: acc) rest

/-- `Path(pdf_path).name`: the last path component, with empty and `.`
components discarded as `pathlib` does when parsing. -/
def pathName (p : String) : String :=
  match ((splitSlashAux [] p.data).filter (fun c => !(c == "" || c == "."))).reverse with
  | [] => ""
  | c :: _ => c

/-- Observable effects of a run, in order: the outbound API request, opening
the database (schema creation), inserting a row, and the diagnostics the
script prints. -/
inductive Effect where
  | apiRequest
  | dbOpen
  | dbInsert (row : StoredRow)
  | printFileMissing
  | printExtractFailed
  | printAnalyzeError
  | printAnalyzeFailed
  | printInsertError
  | printInsertSuccess (filename : String)

/-- Python truthiness of a parsed JSON value, as tested by
`if not analysis:`. -/
def pyTruthy : JsonVal → Bool
  | .null => false
  | .bool b => b
  | .num q => if q = 0 then false else true
  | .str s => !s.isEmpty
  | .arr items => !items.isEmpty
  | .obj fields => !fields.isEmpty

/-- `analyze_pdf_content` as a function of the request outcome: the request
is issued; a transport exception or a parse failure both land in the
`except` branch, printing the error and returning the fallback dictionary. -/
def analyze_pdf_content (o : ApiOutcome) : List Effect × JsonVal :=
  match o with
  | .failure => ([.apiRequest, .printAnalyzeError], fallbackRecord)
  | .success c =>
    match json_loads (clean_json_string (stripFences c)) with
    | some v => ([.apiRequest], v)
    | none => ([.apiRequest, .printAnalyzeError], fallbackRecord)

/-- `process_pdf` as the effect trace of one run, given the extraction
outcome (`none` models the caught PyPDF2 exception), the request outcome and
the input path.  `if not text:` aborts on both `None` and the empty string;
`if not analysis:` aborts on a falsy parsed value before the database is
opened; otherwise the database is opened and the insert attempted. -/
def process_pdf (ext : Option String) (o : ApiOutcome) (pdf_path : String) :
    List Effect :=
  match ext with
  | none => [.printExtractFailed]
  | some text =>
    if text = "" then [.printExtractFailed]
    else if pyTruthy (analyze_pdf_content o).2 = false then
      (analyze_pdf_content o).1 ++ [.printAnalyzeFailed]
    else
      match insert_into_database (analyze_pdf_content o).2 (pathName pdf_path) with
      | some row =>
        (analyze_pdf_content o).1 ++
          [.dbOpen, .dbInsert row, .printInsertSuccess (pathName pdf_path)]
      | none => (analyze_pdf_content o).1 ++ [.dbOpen, .printInsertError]

/-- The script's `main` (the name `main` itself is reserved by Lean): the
existence check guards the whole pipeline; a missing path only prints the
diagnostic. -/
def mainEntry (pathExists : Bool) (ext : Option String) (o : ApiOutcome)
    (pdf_path : String) : List Effect :=
  if pathExists then process_pdf ext o pdf_path else [.printFileMissing]

/-- The all-defaults row inserted when the analysis is the fallback
dictionary. -/
def fallbackRow (fn : String) : StoredRow :=
  ⟨.str "Unknown", .str "Unknown", .str "Unknown", .str "Unknown",
   .str "Unknown", "", .str "No summary available", fn⟩

/-- The seven expected field names of an analysis record. -/
def fieldKeys : List String :=
  ["title", "source", "category", "subtopic", "author", "tags", "summary"]

/-- Does the value carry all seven analysis fields, each present and
non-null? -/
def hasAllFields (v : JsonVal) : Bool :=
  match v with
  | .obj fs => fieldKeys.all (fun k => !isNullV (dictGet fs k .null))
  | _ => false

/-- The effect list of the analysis step is the request alone on a clean
parse, or the request followed by the error diagnostic. -/
theorem analyze_effects_shape (o : ApiOutcome) :
    (analyze_pdf_content o).1 = [Effect.apiRequest] ∨
    (analyze_pdf_content o).1 = [Effect.apiRequest, Effect.printAnalyzeError] := by
  cases o with
  | failure => exact Or.inr rfl
  | success c =>
    rcases h : json_loads (clean_json_string (stripFences c)) with _ | v
    · exact Or.inr (by simp [analyze_pdf_content, h])
    · exact Or.inl (by simp [analyze_pdf_content, h])

/-- Any row the insert commits has a non-null title (the NOT NULL column)
and carries exactly the filename it was handed. -/
theorem insert_some_shape (a : JsonVal) (fn : String) (row : StoredRow)
    (h : insert_into_database a fn = some row) :
    isNullV row.title = false ∧ row.filename = fn := by
  unfold insert_into_database at h
  split at h
  · split at h
    · exact Option.noConfusion h
    · dsimp only [] at h
      split at h
      · rename_i hc
        cases h
        simp only [Bool.and_eq_true, Bool.not_eq_true'] at hc
        exact ⟨hc.2, rfl⟩
      · exact Option.noConfusion h
  · exact Option.noConfusion h

/-- Claim C1, counterexample: the post-completion processing of
`analyze_pdf_content` applied to the valid JSON text `null` returns JSON
null — a value with none of the seven fields — so it does not always return
a record with all seven fields present and non-null; the input
`{"title": "C"}` likewise yields a record missing six of the seven. -/
theorem c1_counterexample :
    normalizeCompletion "null" = JsonVal.null ∧
    hasAllFields JsonVal.null = false ∧
    hasAllFields (normalizeCompletion "\x7b\"title\": \"C\"\x7d") = false :=
  ⟨rfl, rfl, rfl⟩

/-- Claim C1 as amended: the post-completion processing is total (it never
propagates an error): for every input string it either returns the fallback
record — which does have all seven fields present and non-null — or it
returns exactly the successfully parsed value, unchanged, which need not
have the seven fields. -/
theorem c1_theorem (s : String) :
    hasAllFields fallbackRecord = true ∧
    (normalizeCompletion s = fallbackRecord ∨
     ∃ v, json_loads (clean_json_string (stripFences s)) = some v ∧
          normalizeCompletion s = v) := by
  refine ⟨rfl, ?_⟩
  unfold normalizeCompletion
  rcases h : json_loads (clean_json_string (stripFences s)) with _ | v
  · exact Or.inl rfl
  · exact Or.inr ⟨v, rfl, rfl⟩

/-- Claim C2, counterexample: a transport-level failure of the request is
caught by the same handler as a malformed completion and yields the very
same fallback dictionary — no distinguishable sentinel — and the run does
not abort: the all-defaults row is inserted into the store. -/
theorem c2_counterexample :
    analyze_pdf_content ApiOutcome.failure =
      analyze_pdf_content (ApiOutcome.success "not json at all") ∧
    mainEntry true (some "hello") ApiOutcome.failure "doc2.pdf" =
      [Effect.apiRequest, Effect.printAnalyzeError, Effect.dbOpen,
       Effect.dbInsert (fallbackRow "doc2.pdf"),
       Effect.printInsertSuccess "doc2.pdf"] :=
  ⟨rfl, rfl⟩

/-- Claim C2 as amended: on any transport-level failure the Analysis
Requester returns the all-defaults fallback record (the same value a
malformed completion produces, so the caller cannot distinguish the two),
the run does not abort, and the fallback row is inserted into the store. -/
theorem c2_theorem (text p : String) (h : text ≠ "") :
    analyze_pdf_content ApiOutcome.failure =
      ([Effect.apiRequest, Effect.printAnalyzeError], fallbackRecord) ∧
    mainEntry true (some text) ApiOutcome.failure p =
      [Effect.apiRequest, Effect.printAnalyzeError, Effect.dbOpen,
       Effect.dbInsert (fallbackRow (pathName p)),
       Effect.printInsertSuccess (pathName p)] := by
  refine ⟨rfl, ?_⟩
  show process_pdf (some text) ApiOutcome.failure p = _
  simp only [process_pdf]
  rw [if_neg h]
  rfl

/-- Witness for the amended C2 at a concrete run. -/
theorem c2_witness :
    mainEntry true (some "hello2") ApiOutcome.failure "b.pdf" =
      [Effect.apiRequest, Effect.printAnalyzeError, Effect.dbOpen,
       Effect.dbInsert (fallbackRow (pathName "b.pdf")),
       Effect.printInsertSuccess (pathName "b.pdf")] :=
  ( c2_theorem "hello2" "b.pdf" (by decide)).2

/-- Claim C3, counterexample: an extraction that succeeds with the empty
string is rejected by `if not text:` exactly like a null extraction — the
run prints the extraction failure and stops, and the trace contains no
analysis request. -/
theorem c3_counterexample :
    process_pdf (some "") (ApiOutcome.success "\x7b\"title\": \"X\"\x7d") "d.pdf" =
      [Effect.printExtractFailed] ∧
    process_pdf (some "") (ApiOutcome.success "\x7b\"title\": \"X\"\x7d") "d.pdf" =
      process_pdf none (ApiOutcome.success "\x7b\"title\": \"X\"\x7d") "d.pdf" ∧
    Effect.apiRequest ∉
      process_pdf (some "") (ApiOutcome.success "\x7b\"title\": \"X\"\x7d") "d.pdf" :=
  ⟨rfl, rfl, fun hmem => Effect.noConfusion (List.mem_singleton.mp hmem)⟩

/-- Claim C3 as amended: the pipeline proceeds from extraction to the
analysis step only when the extracted text is non-null AND non-empty; an
empty-string extraction aborts the run exactly as a null one does, and any
non-empty text reaches the analysis step (the trace starts with the
request). -/
theorem c3_theorem :
    (∀ o p, process_pdf (some "") o p = [Effect.printExtractFailed] ∧
            process_pdf none o p = [Effect.printExtractFailed]) ∧
    (∀ t o p, t ≠ "" →
      ∃ rest, process_pdf (some t) o p = Effect.apiRequest :: rest) := by
  constructor
  · exact fun o p => ⟨rfl, rfl⟩
  · intro t o p h
    simp only [process_pdf]
    rw [if_neg h]
    rcases analyze_effects_shape o with he | he <;>
      by_cases ht : pyTruthy (analyze_pdf_content o).2 = false
    · rw [if_pos ht, he]; exact ⟨_, rfl⟩
    · rw [if_neg ht]
      rcases hi : insert_into_database (analyze_pdf_content o).2 (pathName p)
        with _ | row <;> rw [he] <;> exact ⟨_, rfl⟩
    · rw [if_pos ht, he]; exact ⟨_, rfl⟩
    · rw [if_neg ht]
      rcases hi : insert_into_database (analyze_pdf_content o).2 (pathName p)
        with _ | row <;> rw [he] <;> exact ⟨_, rfl⟩

/-- Witness for the amended C3 at a concrete run. -/
theorem c3_witness :
    ∃ rest, process_pdf (some "txt") (ApiOutcome.success "\x7b\x7d") "c.pdf" =
      Effect.apiRequest :: rest :=
  c3_theorem.2 "txt" (ApiOutcome.success "\x7b\x7d") "c.pdf" (by decide)

/-- Claim C4, counterexample: a completion whose title is explicitly the
empty string passes the truthiness check (the dict is non-empty), satisfies
the NOT NULL constraint, and is committed — the stored row's `title` is the
empty string, so the non-emptiness invariant fails. -/
theorem c4_counterexample :
    mainEntry true (some "body text") (ApiOutcome.success "\x7b\"title\": \"\"\x7d")
        "doc.pdf" =
      [Effect.apiRequest, Effect.dbOpen,
       Effect.dbInsert ⟨JsonVal.str "", JsonVal.str "Unknown", JsonVal.str "Unknown",
                        JsonVal.str "Unknown", JsonVal.str "Unknown", "",
                        JsonVal.str "No summary available", "doc.pdf"⟩,
       Effect.printInsertSuccess "doc.pdf"] :=
  rfl

/-- Claim C4 as amended: every row any run ever inserts has a non-null
`title` (it defaults to "Unknown" when absent but may be the empty string
when the analysis explicitly carries one) and its `filename` is exactly the
basename of the input path (a non-null string). -/
theorem c4_theorem (pe : Bool) (ext : Option String) (o : ApiOutcome) (p : String)
    (row : StoredRow) (h : Effect.dbInsert row ∈ mainEntry pe ext o p) :
    isNullV row.title = false ∧ row.filename = pathName p := by
  unfold mainEntry at h
  cases pe with
  | false => simp at h
  | true =>
    rw [if_pos rfl] at h
    cases ext with
    | none => simp [process_pdf] at h
    | some text =>
      simp only [process_pdf] at h
      by_cases ht : text = ""
      · rw [if_pos ht] at h; simp at h
      · rw [if_neg ht] at h
        by_cases htr : pyTruthy (analyze_pdf_content o).2 = false
        · rw [if_pos htr] at h
          rcases analyze_effects_shape o with he | he <;> rw [he] at h <;> simp at h
        · rw [if_neg htr] at h
          rcases hi : insert_into_database (analyze_pdf_content o).2 (pathName p)
            with _ | row2
          · rw [hi] at h
            rcases analyze_effects_shape o with he | he <;> rw [he] at h <;> simp at h
          · rw [hi] at h
            rcases analyze_effects_shape o with he | he <;> rw [he] at h <;>
              simp at h <;> subst h <;> exact insert_some_shape _ _ _ hi

/-- Witness for the amended C4 at a concrete run that inserts a row. -/
theorem c4_witness :
    isNullV (fallbackRow "a.pdf").title = false ∧
    (fallbackRow "a.pdf").filename = pathName "x/a.pdf" := by
  have hm : mainEntry true (some "z") ApiOutcome.failure "x/a.pdf" =
      [Effect.apiRequest, Effect.printAnalyzeError, Effect.dbOpen,
       Effect.dbInsert (fallbackRow "a.pdf"), Effect.printInsertSuccess "a.pdf"] := rfl
  refine c4_theorem true (some "z") ApiOutcome.failure "x/a.pdf" (fallbackRow "a.pdf") ?_
  rw [hm]
  exact List.mem_cons_of_mem _ (List.mem_cons_of_mem _
    (List.mem_cons_of_mem _ (List.mem_cons_self _ _)))

/-- Claim C5, counterexample: a `tags` value that is a string is NOT treated
as absent — `",".join` iterates its characters, so `"xy"` is stored as
`"x,y"`; and a numeric `tags` value makes the join raise, the insert is
caught, and no row is stored at all (rather than a row with empty tags). -/
theorem c5_counterexample :
    (insert_into_database (JsonVal.obj [("tags", JsonVal.str "xy")]) "doc.pdf").map
        StoredRow.tags = some "x,y" ∧
    insert_into_database (JsonVal.obj [("tags", JsonVal.num 5)]) "doc.pdf" = none :=
  ⟨rfl, rfl⟩

/-- Claim C5 as amended: a present-but-non-sequence `tags` value is not
defaulted: a string joins character-wise into the stored value; a number,
null or boolean makes the join raise `TypeError`, the insert handler
swallows it, and no row is stored; only an absent `tags` field yields the
empty-string default. -/
theorem c5_theorem (fn : String) :
    insert_into_database (JsonVal.obj [("tags", JsonVal.str "xy")]) fn =
      some ⟨JsonVal.str "Unknown", JsonVal.str "Unknown", JsonVal.str "Unknown",
            JsonVal.str "Unknown", JsonVal.str "Unknown", "x,y",
            JsonVal.str "No summary available", fn⟩ ∧
    insert_into_database (JsonVal.obj [("tags", JsonVal.num 5)]) fn = none ∧
    insert_into_database (JsonVal.obj [("tags", JsonVal.null)]) fn = none ∧
    insert_into_database (JsonVal.obj [("tags", JsonVal.bool true)]) fn = none ∧
    insert_into_database (JsonVal.obj []) fn =
      some ⟨JsonVal.str "Unknown", JsonVal.str "Unknown", JsonVal.str "Unknown",
            JsonVal.str "Unknown", JsonVal.str "Unknown", "",
            JsonVal.str "No summary available", fn⟩ :=
  ⟨rfl, rfl, rfl, rfl, rfl⟩

/-- Claim C6: the completion `{"title": "C"}` parses to a record keeping
title "C"; the `tags` lookup defaults to the empty sequence; and the stored
row carries every absent field's default — source, category, subtopic and
author "Unknown", tags joined from the empty sequence (the empty string),
summary "No summary available" — while the title "C" is kept. -/
theorem c6_theorem (fn : String) :
    analyze_pdf_content (ApiOutcome.success "\x7b\"title\": \"C\"\x7d") =
      ([Effect.apiRequest], JsonVal.obj [("title", JsonVal.str "C")]) ∧
    dictGet [("title", JsonVal.str "C")] "tags" (JsonVal.arr []) = JsonVal.arr [] ∧
    insert_into_database (JsonVal.obj [("title", JsonVal.str "C")]) fn =
      some ⟨JsonVal.str "C", JsonVal.str "Unknown", JsonVal.str "Unknown",
            JsonVal.str "Unknown", JsonVal.str "Unknown", "",
            JsonVal.str "No summary available", fn⟩ :=
  ⟨rfl, rfl, rfl⟩

/-- Claim C7: on `{"title": "A", "tags": ["x", "y",],}` the repair removes
both trailing commas (the one before `]` and the one before `}`, all
occurrences) before parsing; the parsed record has title "A" and tags
["x","y"], and the stored row has every other field at its default. -/
theorem c7_theorem (fn : String) :
    clean_json_string "\x7b\"title\": \"A\", \"tags\": [\"x\", \"y\",],\x7d" =
      "\x7b\"title\": \"A\", \"tags\": [\"x\", \"y\"]\x7d" ∧
    normalizeCompletion "\x7b\"title\": \"A\", \"tags\": [\"x\", \"y\",],\x7d" =
      JsonVal.obj [("title", JsonVal.str "A"),
                   ("tags", JsonVal.arr [JsonVal.str "x", JsonVal.str "y"])] ∧
    insert_into_database
        (JsonVal.obj [("title", JsonVal.str "A"),
                      ("tags", JsonVal.arr [JsonVal.str "x", JsonVal.str "y"])]) fn =
      some ⟨JsonVal.str "A", JsonVal.str "Unknown", JsonVal.str "Unknown",
            JsonVal.str "Unknown", JsonVal.str "Unknown", "x,y",
            JsonVal.str "No summary available", fn⟩ :=
  ⟨rfl, rfl, rfl⟩

/-- Claim C8: the fenced completion normalizes to exactly the same string,
and hence exactly the same record, as the bare object text — the opening
marker plus following whitespace and the closing marker plus surrounding
whitespace are stripped, leaving the inner text unchanged. -/
theorem c8_theorem :
    stripFences "```json\n\x7b\"title\": \"B\"\x7d\n```" = "\x7b\"title\": \"B\"\x7d" ∧
    stripFences "\x7b\"title\": \"B\"\x7d" = "\x7b\"title\": \"B\"\x7d" ∧
    normalizeCompletion "```json\n\x7b\"title\": \"B\"\x7d\n```" =
      normalizeCompletion "\x7b\"title\": \"B\"\x7d" ∧
    normalizeCompletion "\x7b\"title\": \"B\"\x7d" =
      JsonVal.obj [("title", JsonVal.str "B")] :=
  ⟨rfl, rfl, rfl, rfl⟩

/-- Claim C9: when the input path does not exist, the run only prints the
diagnostic — the trace contains no analysis request, no database open and no
row insertion, for every state of the other collaborators. -/
theorem c9_theorem (ext : Option String) (o : ApiOutcome) (p : String) :
    mainEntry false ext o p = [Effect.printFileMissing] ∧
    Effect.apiRequest ∉ mainEntry false ext o p ∧
    Effect.dbOpen ∉ mainEntry false ext o p ∧
    ∀ r, Effect.dbInsert r ∉ mainEntry false ext o p := by
  refine ⟨rfl, ?_, ?_, fun r => ?_⟩ <;>
    · show _ ∉ [Effect.printFileMissing]
      simp

/-- Claim C10: whenever the completion parses successfully to a falsy value
(such as the empty object), `process_pdf` stops at the `if not analysis:`
check — the trace is just the request and the failure diagnostic, with no
database open and no row insertion, even though parsing succeeded. -/
theorem c10_theorem (text c : String) (v : JsonVal) (p : String)
    (h1 : text ≠ "")
    (h2 : json_loads (clean_json_string (stripFences c)) = some v)
    (h3 : pyTruthy v = false) :
    mainEntry true (some text) (ApiOutcome.success c) p =
      [Effect.apiRequest, Effect.printAnalyzeFailed] ∧
    Effect.dbOpen ∉ mainEntry true (some text) (ApiOutcome.success c) p ∧
    ∀ r, Effect.dbInsert r ∉ mainEntry true (some text) (ApiOutcome.success c) p := by
  have ha : analyze_pdf_content (ApiOutcome.success c) = ([Effect.apiRequest], v) := by
    simp [analyze_pdf_content, h2]
  have hm : mainEntry true (some text) (ApiOutcome.success c) p =
      [Effect.apiRequest, Effect.printAnalyzeFailed] := by
    show process_pdf (some text) (ApiOutcome.success c) p = _
    simp only [process_pdf]
    rw [if_neg h1, ha]
    simp [h3]
  refine ⟨hm, ?_, fun r => ?_⟩ <;> rw [hm] <;> simp

/-- Witness for C10: the completion `{}` parses to the empty (falsy) dict
and the run stops before any store interaction. -/
theorem c10_witness :
    mainEntry true (some "body") (ApiOutcome.success "\x7b\x7d") "a.pdf" =
      [Effect.apiRequest, Effect.printAnalyzeFailed] :=
  ( c10_theorem "body" "\x7b\x7d" (JsonVal.obj []) "a.pdf" (by decide) rfl rfl).1
